import Mathlib

/-!
Verification of the client-side script `static/js/main.js` of the
CC_Marketers repository.

The file shallowly embeds the script's pure behaviour in Lean:

* JavaScript string primitives used by the validator (`trim`, the regex
  whitespace class `\s`, `replace(/\s/g, '')`) are modelled on `List Char`;
* the two regular-expression validators `isValidEmail` and `isValidPhone`
  are rendered as executable character-list matchers;
* `validateField` is modelled as a function from a field snapshot (its
  `name`, `type`, `value`, `required` flag) and the current value of the
  document's `input[name="password1"]` (if any) to `Option String` — the
  error message handed to `showFieldError`, or `none` when the function
  returns `true`;
* the dropdown controller, the copy-button click handler, the toast
  body/auto-dismiss lifecycle, the `debounce` wrapper and the
  `showLoading`/`hideLoading` pair are modelled as explicit state-passing
  functions, with `setTimeout` bursts modelled by a virtual-time event list.
-/

/-- The character set matched by the ECMAScript regex class `\s` (and removed
by `String.prototype.trim`): the ASCII whitespace characters, NBSP, the
Unicode space separators, the line separators and the BOM. -/
def jsWhitespaceChars : List Char :=
  [' ', '\t', '\n', '\r', '\x0b', '\x0c',
   ' ', ' ', ' ', ' ', ' ', ' ', ' ',
   ' ', ' ', ' ', ' ', ' ', ' ',
   ' ', ' ', ' ', ' ', '　', '﻿']

/-- Whether a character is JavaScript whitespace (`\s`). -/
def jsWs (c : Char) : Bool :=
  jsWhitespaceChars.contains c

/-- JavaScript `String.prototype.trim`: drop leading and trailing
whitespace. -/
def jsTrim (s : String) : String :=
  ⟨((s.data.dropWhile jsWs).reverse.dropWhile jsWs).reverse⟩

/-- JavaScript `phone.replace(/\s/g, '')`: remove every whitespace
character. -/
def stripWs (s : String) : String :=
  ⟨s.data.filter (fun c => !jsWs c)⟩

/-- A digit `[1-9]`. -/
def isDigit19 (c : Char) : Bool :=
  '1' ≤ c && c ≤ '9'

/-- A digit `[0-9]`, the ECMAScript class `\d`. -/
def isDigit09 (c : Char) : Bool :=
  '0' ≤ c && c ≤ '9'

/-- Character-list matcher for the regex `^[^\s@]+@[^\s@]+\.[^\s@]+$`.
A string matches exactly when it splits as `A ++ "@" ++ D` where `A` (the
part before the first `@`) is non-empty and free of whitespace and `@`, and
`D` is free of whitespace and `@` and contains a dot at some position that
is neither first nor last — i.e. `D = B ++ "." ++ C` with `B`, `C`
non-empty.  The matcher checks that characterisation directly; the bridge
to the decomposition form is proved in `emailMatchList_iff` below. -/
def emailMatchList (cs : List Char) : Bool :=
  match cs.dropWhile (fun c => c != '@') with
  | '@' :: domainPart =>
      !(cs.takeWhile (fun c => c != '@')).isEmpty &&
      (cs.takeWhile (fun c => c != '@')).all (fun c => !jsWs c) &&
      domainPart.all (fun c => !jsWs c && c != '@') &&
      ((domainPart.drop 1).dropLast.contains '.')
  | _ => false

/-- The source's `isValidEmail`: `emailRegex.test(email)`. -/
def isValidEmail (email : String) : Bool :=
  emailMatchList email.data

/-- Strip the optional leading `+` of the phone regex `[\+]?`.  Because the
next atom `[1-9]` cannot match `+`, consuming a leading `+` is the only way
the regex can match when one is present, so the optional is
deterministic. -/
def dropPlus : List Char → List Char
  | [] => []
  | c :: rest => if c = '+' then rest else c :: rest

/-- Matcher for the part `[1-9][\d]{0,15}$` of the phone regex: a non-zero
digit followed by at most 15 further digits, up to the end of input. -/
def phoneDigitsOk : List Char → Bool
  | [] => false
  | c :: rest => isDigit19 c && decide (rest.length ≤ 15) && rest.all isDigit09

/-- The source's `isValidPhone`: test of the regex `^[\+]?[1-9][\d]{0,15}$`
against the phone number with all whitespace removed (`replace(/\s/g, '')`):
an optional leading `+`, then a non-zero digit, then at most 15 further
digits. -/
def isValidPhone (phone : String) : Bool :=
  phoneDigitsOk (dropPlus (stripWs phone).data)

/-- Stated from the spec's description of the email rule: the value splits
as `local@domain.tld` — a non-empty local part, `@`, and a domain part that
contains an interior dot, with no whitespace and no second `@` anywhere.
This is the decomposition form of the regex `^[^\s@]+@[^\s@]+\.[^\s@]+$`,
to be compared with the source matcher `emailMatchList`. -/
def emailSpecMatch (cs : List Char) : Prop :=
  ∃ a b c : List Char,
    a ≠ [] ∧ b ≠ [] ∧ c ≠ [] ∧
    (∀ x ∈ a, jsWs x = false ∧ x ≠ '@') ∧
    (∀ x ∈ b, jsWs x = false ∧ x ≠ '@') ∧
    (∀ x ∈ c, jsWs x = false ∧ x ≠ '@') ∧
    cs = a ++ '@' :: (b ++ '.' :: c)

/-- Stated from the spec's description of the phone rule: after stripping
whitespace the value is an optional leading `+` followed by a non-empty
run of digits, the first digit non-zero, at most 16 digits in total.  To be
compared with the source matcher `phoneDigitsOk ∘ dropPlus`. -/
def phoneSpecMatch (cs : List Char) : Prop :=
  ∃ ds : List Char,
    (cs = ds ∨ cs = '+' :: ds) ∧
    ds ≠ [] ∧
    (∀ c ∈ ds, isDigit09 c = true) ∧
    ds.head? ≠ some '0' ∧
    ds.length ≤ 16

/-- A snapshot of the properties of a form field that `validateField`
reads: `field.name`, `field.type`, `field.value`, `field.required`. -/
structure FormField where
  name : String
  type : String
  value : String
  required : Bool

/-- The `switch (type)` block of `validateField`, applied to the trimmed
value: the email, password-length and phone checks, each producing the
message passed to `showFieldError` when it fails. -/
def typeRuleError (field : FormField) (value : String) : Option String :=
  if field.type == "email" && !isValidEmail value then
    some "Please enter a valid email address"
  else if field.type == "password" && field.name == "password1"
      && decide (value.length < 8) then
    some "Password must be at least 8 characters long"
  else if field.type == "tel" && !isValidPhone value then
    some "Please enter a valid phone number"
  else none

/-- The source's `validateField`.  `password1` is the current value of
`document.querySelector('input[name="password1"]')` — `none` when no such
input exists.  The result is the message shown by `showFieldError` when the
function returns `false`, and `none` when it returns `true`.  The JS
truthiness test `if (value)` on a string is the non-emptiness test. -/
def validateField (field : FormField) (password1 : Option String) : Option String :=
  let value := jsTrim field.value
  if field.required && value == "" then
    some "This field is required"
  else if value == "" then
    none
  else
    match typeRuleError field value with
    | some msg => some msg
    | none =>
        if field.name == "password2" then
          match password1 with
          | some p1 => if value != p1 then some "Passwords do not match" else none
          | none => none
        else none

/-- A DOM element as seen by the loading-state helpers: its `innerHTML`,
its `disabled` flag, and the `data-original-content` dataset slot
(`none` when the attribute is absent). -/
structure UIElement where
  innerHTML : String
  disabled : Bool
  originalContent : Option String
deriving DecidableEq

/-- The busy indicator `showLoading` swaps in. -/
def spinnerHTML : String := "<div class=\"spinner\"></div>"

/-- The source's `showLoading`: stash the current `innerHTML` in
`dataset.originalContent`, replace the content with the spinner, and
disable the element. -/
def showLoading (element : UIElement) : UIElement :=
  { innerHTML := spinnerHTML,
    disabled := true,
    originalContent := some element.innerHTML }

/-- The source's `hideLoading`: if `dataset.originalContent` is truthy
(present and not the empty string), restore it into `innerHTML` and delete
the dataset slot; in every case set `disabled = false`. -/
def hideLoading (element : UIElement) : UIElement :=
  match element.originalContent with
  | some oc =>
      if oc != "" then
        { innerHTML := oc, originalContent := none, disabled := false }
      else
        { element with disabled := false }
  | none => { element with disabled := false }

/-- The document body as a list of toast identities, in appended order.
A toast's `parentElement` is non-null exactly when the toast is a member. -/
def appendToast (body : List Nat) (toast : Nat) : List Nat :=
  body ++ [toast]

/-- The manual dismiss control: `toast.remove()`.  Removing a detached
element is a no-op in the DOM, matching `List.erase` of an absent entry. -/
def dismissClick (body : List Nat) (toast : Nat) : List Nat :=
  body.erase toast

/-- The auto-dismiss timer body of `showToast`:
`if (toast.parentElement) { toast.remove(); }`. -/
def autoDismiss (body : List Nat) (toast : Nat) : List Nat :=
  if toast ∈ body then body.erase toast else body

/-- A `showToast(message, type)` call: the message text and the type
string. -/
structure ToastRequest where
  message : String
  type : String
deriving DecidableEq

/-- The source's `getToastClasses`: the per-type styling lookup with the
`classes[type] || classes.info` fallback (in the source the `info` entry
itself carries the red `error` styling). -/
def getToastClasses (type : String) : String :=
  if type == "success" then "border-green-200 text-green-800 bg-green-50"
  else if type == "error" then "border-red-200 text-red-800 bg-red-50"
  else if type == "warning" then "border-yellow-200 text-yellow-800 bg-yellow-50"
  else if type == "info" then "border-red-200 text-red-800 bg-red-50"
  else "border-red-200 text-red-800 bg-red-50"

/-- A DOM element as seen by the copy-button handler: `value` is `some`
for input-like fields and `none` for other elements. -/
structure DomElement where
  value : Option String
  textContent : String
  innerHTML : String
deriving DecidableEq

/-- The handler's `targetElement.value || targetElement.textContent`: the
value when it is truthy (present and non-empty), otherwise the text
content. -/
def copyText (target : DomElement) : String :=
  match target.value with
  | some v => if v != "" then v else target.textContent
  | none => target.textContent

/-- The confirmation content the copy button swaps in on success. -/
def copiedConfirmationHTML : String :=
  "<svg class=\"w-4 h-4\" fill=\"currentColor\" viewBox=\"0 0 20 20\"><path fill-rule=\"evenodd\" d=\"M16.707 5.293a1 1 0 010 1.414l-8 8a1 1 0 01-1.414 0l-4-4a1 1 0 011.414-1.414L8 12.586l7.293-7.293a1 1 0 011.414 0z\" clip-rule=\"evenodd\"></path></svg><span>Copied!</span>"

/-- The observable outcome of one copy-button click: the string passed to
`navigator.clipboard.writeText` (when a target was found), the toast
raised, the content swapped into the button right away, the delay of the
scheduled restore, and the button content after that timer has run. -/
structure CopyClickOutcome where
  clipboardText : Option String
  toast : Option ToastRequest
  swappedHTML : Option String
  restoreDelayMs : Option Nat
  finalHTML : String
deriving DecidableEq

/-- The copy-button click handler of `initializeCopyButtons`, for a button
whose `data-copy` selector resolved to `target` (or to no element), with
`clipboardOk` the outcome of the asynchronous clipboard write.  With no
target nothing happens; on success a toast is shown and the button content
swaps to the confirmation, the original content being restored by a timer
2000 ms later; on failure only an error toast is shown. -/
def copyClick (button : DomElement) (target : Option DomElement)
    (clipboardOk : Bool) : CopyClickOutcome :=
  match target with
  | none =>
      { clipboardText := none, toast := none, swappedHTML := none,
        restoreDelayMs := none, finalHTML := button.innerHTML }
  | some t =>
      let textToCopy := copyText t
      if clipboardOk then
        { clipboardText := some textToCopy,
          toast := some { message := "Copied to clipboard!", type := "success" },
          swappedHTML := some copiedConfirmationHTML,
          restoreDelayMs := some 2000,
          finalHTML := button.innerHTML }
      else
        { clipboardText := some textToCopy,
          toast := some { message := "Failed to copy to clipboard", type := "error" },
          swappedHTML := none,
          restoreDelayMs := none,
          finalHTML := button.innerHTML }

/-- Dropdown state for `n` wired containers (each with a trigger button
and a menu; a container missing either is never wired and only ever closed
by the document handler): whether each container carries the `active`
class. -/
def DropdownState (n : Nat) := Fin n → Bool

/-- The trigger-click handler of `initializeDropdowns`: the click is
stopped from propagating, every other container loses `active`, and the
clicked container's `active` class is toggled. -/
def clickTrigger {n : Nat} (state : DropdownState n) (i : Fin n) : DropdownState n :=
  fun j => if j = i then !(state j) else false

/-- The document-level click handler: a click not intercepted by a trigger
removes `active` from every container. -/
def outsideClick {n : Nat} (_state : DropdownState n) : DropdownState n :=
  fun _ => false

/-- Dropdown states reachable from the initial page (no container
`active`) through trigger clicks and outside clicks. -/
inductive DropdownReachable {n : Nat} : DropdownState n → Prop where
  | init : DropdownReachable (fun _ => false)
  | trigger (s : DropdownState n) (i : Fin n) :
      DropdownReachable s → DropdownReachable (clickTrigger s i)
  | outside (s : DropdownState n) :
      DropdownReachable s → DropdownReachable (outsideClick s)

/-- At most one dropdown container carries the `active` class. -/
def atMostOneOpen {n : Nat} (state : DropdownState n) : Prop :=
  ∀ i j : Fin n, state i = true → state j = true → i = j

/-- Event-loop model of the closure returned by `debounce(func, wait)`.
The state is the pending `setTimeout`, as `some (fireTime, args)` — the
`later` closure scheduled at some call time `t` fires at `t + wait` with
the arguments of that call.  The input is the chronological list of calls
of the wrapper, `(time, args)` pairs.  The output is the chronological
list of invocations of `func`.  Before a call is processed, a pending
timer whose fire time has been reached runs first (it was scheduled
earlier); a surviving pending timer is cancelled by the call's
`clearTimeout` and replaced.  After the last call, the remaining pending
timer fires. -/
def debounceRunAux {α : Type} (wait : Nat) :
    Option (Nat × α) → List (Nat × α) → List (Nat × α)
  | some fire, [] => [fire]
  | none, [] => []
  | some (ft, fa), (t, a) :: rest =>
      if ft ≤ t then (ft, fa) :: debounceRunAux wait (some (t + wait, a)) rest
      else debounceRunAux wait (some (t + wait, a)) rest
  | none, (t, a) :: rest => debounceRunAux wait (some (t + wait, a)) rest

/-- The invocations of `func` produced by calling the wrapper returned by
`debounce(func, wait)` at the given times with the given arguments. -/
def debounceRun {α : Type} (wait : Nat) (calls : List (Nat × α)) : List (Nat × α) :=
  debounceRunAux wait none calls

/-- Helper: after any trigger click at most one container is `active`. -/
lemma clickTrigger_atMostOne {n : Nat} (s : DropdownState n) (i : Fin n) :
    atMostOneOpen (clickTrigger s i) := by
  intro a b ha hb
  unfold clickTrigger at ha hb
  by_cases hai : a = i
  · by_cases hbi : b = i
    · rw [hai, hbi]
    · rw [if_neg hbi] at hb
      exact absurd hb (by simp)
  · rw [if_neg hai] at ha
    exact absurd ha (by simp)

/-- Helper: every reachable dropdown state has at most one container
`active`. -/
lemma dropdownReachable_atMostOne {n : Nat} {s : DropdownState n}
    (h : DropdownReachable s) : atMostOneOpen s := by
  induction h with
  | init => intro a b ha _; exact absurd ha (by simp)
  | trigger s i _ _ => exact clickTrigger_atMostOne s i
  | outside s _ _ => intro a b ha _; exact absurd ha (by simp [outsideClick])

/-- Claim C8: from any reachable dropdown state, clicking container `A`'s
trigger while container `B` is open leaves `A` open and `B` closed; after
any trigger click at most one container is open; and an outside click
closes every container, from any state. -/
theorem dropdown_exclusivity :
    (∀ (n : Nat) (s : DropdownState n), DropdownReachable s →
        ∀ A B : Fin n, A ≠ B → s B = true →
          clickTrigger s A A = true ∧ clickTrigger s A B = false)
    ∧ (∀ (n : Nat) (s : DropdownState n) (i : Fin n), atMostOneOpen (clickTrigger s i))
    ∧ (∀ (n : Nat) (s : DropdownState n) (j : Fin n), outsideClick s j = false) := by
  refine ⟨?_, fun n s i => clickTrigger_atMostOne s i, fun n s j => rfl⟩
  intro n s hreach A B hAB hB
  have hmo := dropdownReachable_atMostOne hreach
  have hA : s A = false := by
    cases hsa : s A with
    | false => rfl
    | true => exact absurd (hmo A B hsa hB) hAB
  constructor
  · unfold clickTrigger
    rw [if_pos rfl, hA]
    rfl
  · unfold clickTrigger
    rw [if_neg (Ne.symm hAB)]

/-- Witness for C8: with two containers, after opening container 1 from
the initial page, clicking container 0's trigger opens 0 and closes 1. -/
theorem dropdown_exclusivity_witness :
    clickTrigger (clickTrigger (fun _ : Fin 2 => false) 1) 0 0 = true ∧
    clickTrigger (clickTrigger (fun _ : Fin 2 => false) 1) 0 1 = false :=
  dropdown_exclusivity.1 2 (clickTrigger (fun _ : Fin 2 => false) 1)
    (DropdownReachable.trigger _ 1 DropdownReachable.init) 0 1 (by decide) rfl

/-- Claim C1 (amended): on a successful clipboard write the copy handler
shows the success-level "Copied to clipboard!" toast (not an info-level
one), swaps the button content to the copied confirmation, and restores
the original content with a 2000 ms timer. -/
theorem copyClick_success_feedback (button target : DomElement) :
    copyClick button (some target) true =
      { clipboardText := some (copyText target),
        toast := some { message := "Copied to clipboard!", type := "success" },
        swappedHTML := some copiedConfirmationHTML,
        restoreDelayMs := some 2000,
        finalHTML := button.innerHTML } := rfl

/-- Counterexample to C1 as stated: at a concrete button and target, the
toast raised by a successful copy is of type `success`, which is a
different kind from `info` (and the two kinds are even styled
differently). -/
theorem copyClick_success_toast_not_info :
    (copyClick ⟨none, "", "Copy"⟩ (some ⟨none, "ref/abc", ""⟩) true).toast
      = some ⟨"Copied to clipboard!", "success"⟩
    ∧ ("success" : String) ≠ "info"
    ∧ getToastClasses "success" ≠ getToastClasses "info" := by decide

/-- Claim C9: when the copy target is an input-like field whose `value` is
the empty string, the string handed to the clipboard is the element's text
content, because `value || textContent` falls through on the falsy empty
string. -/
theorem copyClick_emptyValue_copies_textContent
    (button target : DomElement) (clipboardOk : Bool)
    (h : target.value = some "") :
    (copyClick button (some target) clipboardOk).clipboardText
      = some target.textContent := by
  obtain ⟨v, tc, ih⟩ := target
  simp only at h
  subst h
  cases clipboardOk <;> rfl

/-- Witness for C9 at a concrete referral-link input with an empty value. -/
theorem copyClick_emptyValue_copies_textContent_witness :
    (copyClick ⟨none, "", "Copy"⟩ (some ⟨some "", "https://x/ref/abc", ""⟩)
        true).clipboardText
      = some "https://x/ref/abc" :=
  copyClick_emptyValue_copies_textContent _ _ true rfl

/-- Claim C10: `hideLoading` clears the `disabled` flag unconditionally;
it restores the stashed content and clears the stash slot exactly when the
slot holds a non-empty string, and otherwise leaves both the content and
the slot untouched. -/
theorem hideLoading_effects (e : UIElement) :
    (hideLoading e).disabled = false
    ∧ (∀ s, e.originalContent = some s → s ≠ "" →
        (hideLoading e).innerHTML = s ∧ (hideLoading e).originalContent = none)
    ∧ ((e.originalContent = none ∨ e.originalContent = some "") →
        (hideLoading e).innerHTML = e.innerHTML
          ∧ (hideLoading e).originalContent = e.originalContent) := by
  obtain ⟨ih, d, oc⟩ := e
  cases oc with
  | none => simp [hideLoading]
  | some s =>
    by_cases hs : s = ""
    · subst hs
      simp [hideLoading]
    · simp [hideLoading, hs]

/-- Witness for C10 at a concrete element with a stashed non-empty
content. -/
theorem hideLoading_effects_witness :
    (hideLoading ⟨spinnerHTML, true, some "orig"⟩).disabled = false
    ∧ (hideLoading ⟨spinnerHTML, true, some "orig"⟩).innerHTML = "orig"
    ∧ (hideLoading ⟨spinnerHTML, true, some "orig"⟩).originalContent = none :=
  ⟨(hideLoading_effects _).1,
   ((hideLoading_effects _).2.1 "orig" rfl (by decide)).1,
   ((hideLoading_effects _).2.1 "orig" rfl (by decide)).2⟩

/-- Claim C3 (amended): for an element whose displayable content is
non-empty, `showLoading` then `hideLoading` restores that content exactly
and clears the stash slot; a second `hideLoading` is always a no-op on the
whole element state, and a `hideLoading` with no prior `showLoading`
(empty stash slot) leaves the content and the slot unchanged. -/
theorem loading_roundtrip (e : UIElement) (h : e.innerHTML ≠ "") :
    (hideLoading (showLoading e)).innerHTML = e.innerHTML
    ∧ (hideLoading (showLoading e)).originalContent = none
    ∧ (hideLoading (showLoading e)).disabled = false
    ∧ (∀ x : UIElement, hideLoading (hideLoading x) = hideLoading x)
    ∧ (∀ x : UIElement, x.originalContent = none →
        (hideLoading x).innerHTML = x.innerHTML
          ∧ (hideLoading x).originalContent = none) := by
  refine ⟨?_, ?_, ?_, ?_, ?_⟩
  · simp [showLoading, hideLoading, h]
  · simp [showLoading, hideLoading, h]
  · simp [showLoading, hideLoading, h]
  · intro x
    obtain ⟨ih, d, oc⟩ := x
    cases oc with
    | none => simp [hideLoading]
    | some s =>
      by_cases hs : s = ""
      · subst hs
        simp [hideLoading]
      · simp [hideLoading, hs]
  · intro x hx
    obtain ⟨ih, d, oc⟩ := x
    simp only at hx
    subst hx
    simp [hideLoading]

/-- Witness for C3 (amended) at a concrete button element. -/
theorem loading_roundtrip_witness :
    (hideLoading (showLoading ⟨"<span>Submit</span>", false, none⟩)).innerHTML
      = "<span>Submit</span>" :=
  (loading_roundtrip _ (by decide)).1

/-- Counterexample to C3 as stated: for an element whose original content
is the empty string, the round trip does not restore the content — the
stash slot holds the falsy empty string, so `hideLoading` skips the
restore and the spinner stays. -/
theorem loading_roundtrip_empty_counterexample :
    (hideLoading (showLoading ⟨"", false, none⟩)).innerHTML = spinnerHTML
    ∧ spinnerHTML ≠ "" := by decide

/-- Claim C4: a toast's auto-dismiss timer firing when the toast is no
longer in the document body leaves the body unchanged, in particular when
it was removed by the manual dismiss control. -/
theorem autoDismiss_safe :
    (∀ (body : List Nat) (toast : Nat), toast ∉ body →
        autoDismiss body toast = body)
    ∧ (∀ (body : List Nat) (toast : Nat), body.Nodup →
        autoDismiss (dismissClick body toast) toast = dismissClick body toast) := by
  constructor
  · intro body toast h
    simp [autoDismiss, h]
  · intro body toast h
    have hnm : toast ∉ body.erase toast :=
      fun hmem => ((List.Nodup.mem_erase_iff h).1 hmem).1 rfl
    simp [autoDismiss, dismissClick, hnm]

/-- Witness for C4: concrete bodies — a timer firing for an absent toast,
and a timer firing after a manual dismiss. -/
theorem autoDismiss_safe_witness :
    autoDismiss [7] 9 = [7]
    ∧ autoDismiss (dismissClick [7, 8] 8) 8 = dismissClick [7, 8] 8 :=
  ⟨autoDismiss_safe.1 [7] 9 (by decide), autoDismiss_safe.2 [7, 8] 8 (by decide)⟩

/-- Helper: with a pending timer that fires strictly later than the next
call, a chain of calls each arriving within `wait` ms of its predecessor
produces exactly one invocation, at `wait` ms after the last call and with
its arguments. -/
lemma debounceRunAux_burst {α : Type} (wait : Nat) :
    ∀ (calls : List (Nat × α)) (ft : Nat) (fa : α) (t : Nat) (a : α),
      List.Chain' (fun p q : Nat × α => p.1 ≤ q.1 ∧ q.1 < p.1 + wait) calls →
      (∀ (t1 : Nat) (a1 : α) (rs : List (Nat × α)), calls = (t1, a1) :: rs → t1 < ft) →
      calls.getLast? = some (t, a) →
      debounceRunAux wait (some (ft, fa)) calls = [(t + wait, a)] := by
  intro calls
  induction calls with
  | nil =>
    intro ft fa t a _ _ hlast
    simp at hlast
  | cons c0 rest ih =>
    obtain ⟨t0, a0⟩ := c0
    intro ft fa t a hchain hhead hlast
    have hlt : t0 < ft := hhead t0 a0 rest rfl
    have hstep : debounceRunAux wait (some (ft, fa)) ((t0, a0) :: rest)
        = debounceRunAux wait (some (t0 + wait, a0)) rest := by
      simp only [debounceRunAux]
      rw [if_neg (by omega)]
    rw [hstep]
    cases rest with
    | nil =>
      simp [List.getLast?] at hlast
      obtain ⟨ht, ha⟩ := hlast
      subst ht
      subst ha
      rfl
    | cons c1 rs =>
      obtain ⟨t1, a1⟩ := c1
      have hR := (List.chain'_cons.1 hchain).1
      apply ih (t0 + wait) a0 t a (List.chain'_cons.1 hchain).2
      · intro t2 a2 rs2 heq
        cases heq
        exact hR.2
      · rw [List.getLast?_cons_cons] at hlast
        exact hlast

/-- Claim C7: a non-empty burst of calls of the `debounce(func, wait)`
wrapper, each arriving within `wait` ms of the previous one, makes `func`
run exactly once — `wait` ms after the last call, with the last call's
arguments. -/
theorem debounce_trailing_call {α : Type} (wait : Nat) (calls : List (Nat × α))
    (t : Nat) (a : α)
    (hchain : List.Chain' (fun p q : Nat × α => p.1 ≤ q.1 ∧ q.1 < p.1 + wait) calls)
    (hlast : calls.getLast? = some (t, a)) :
    debounceRun wait calls = [(t + wait, a)] := by
  cases calls with
  | nil => simp at hlast
  | cons c0 rest =>
    obtain ⟨t0, a0⟩ := c0
    have hstep : debounceRun wait ((t0, a0) :: rest)
        = debounceRunAux wait (some (t0 + wait, a0)) rest := rfl
    rw [hstep]
    cases rest with
    | nil =>
      simp [List.getLast?] at hlast
      obtain ⟨ht, ha⟩ := hlast
      subst ht
      subst ha
      rfl
    | cons c1 rs =>
      obtain ⟨t1, a1⟩ := c1
      have hR := (List.chain'_cons.1 hchain).1
      apply debounceRunAux_burst wait ((t1, a1) :: rs) (t0 + wait) a0 t a
        (List.chain'_cons.1 hchain).2
      · intro t2 a2 rs2 heq
        cases heq
        exact hR.2
      · rw [List.getLast?_cons_cons] at hlast
        exact hlast

/-- Witness for C7: five calls of a 200 ms debounce within 100 ms invoke
the function exactly once, at 300 ms, with the final call's argument. -/
theorem debounce_trailing_call_witness :
    debounceRun 200 [(0, 1), (25, 2), (50, 3), (75, 4), (100, 5)] = [(300, 5)] :=
  debounce_trailing_call 200 _ 100 5
    (by norm_num [List.chain'_cons, List.chain'_singleton]) (by decide)

/-- Helper: for a non-empty trimmed value, `validateField` is the
type-specific switch followed by the password-confirmation check. -/
lemma validateField_nonempty (f : FormField) (p1 : Option String)
    (hv : jsTrim f.value ≠ "") :
    validateField f p1 =
      match typeRuleError f (jsTrim f.value) with
      | some msg => some msg
      | none =>
          if f.name == "password2" then
            match p1 with
            | some q => if jsTrim f.value != q then some "Passwords do not match" else none
            | none => none
          else none := by
  have h1 : (jsTrim f.value == "") = false := by
    simp [hv]
  unfold validateField
  simp only [h1, Bool.and_false, if_false, Bool.false_eq_true, ite_false]

/-- Claim C2 (amended): for a field named `password2` whose trimmed value
is non-empty and passes the type-specific rules, validation fails with
"Passwords do not match" exactly when a `password1` input exists whose
current value differs from the trimmed value, and passes exactly when no
`password1` input exists or its value is equal. -/
theorem password2_confirmation (f : FormField) (p1 : Option String)
    (hname : f.name = "password2") (hv : jsTrim f.value ≠ "")
    (htype : typeRuleError f (jsTrim f.value) = none) :
    (validateField f p1 = some "Passwords do not match"
        ↔ ∃ q, p1 = some q ∧ jsTrim f.value ≠ q)
    ∧ (validateField f p1 = none ↔ ∀ q, p1 = some q → jsTrim f.value = q) := by
  rw [validateField_nonempty f p1 hv, htype]
  simp only [hname]
  cases p1 with
  | none => simp
  | some q =>
    by_cases hq : jsTrim f.value = q
    · simp [hq]
    · simp [hq]

/-- Witness for C2 (amended): with `password1 = "abc12345"`, a `password2`
field with value `"different"` fails with the mismatch message, and one
with value `"abc12345"` passes. -/
theorem password2_confirmation_witness :
    validateField ⟨"password2", "password", "different", false⟩ (some "abc12345")
      = some "Passwords do not match"
    ∧ validateField ⟨"password2", "password", "abc12345", false⟩ (some "abc12345")
      = none :=
  ⟨(password2_confirmation ⟨"password2", "password", "different", false⟩
      (some "abc12345") rfl (by decide) (by decide)).1.mpr
      ⟨"abc12345", rfl, by decide⟩,
   (password2_confirmation ⟨"password2", "password", "abc12345", false⟩
      (some "abc12345") rfl (by decide) (by decide)).2.mpr
      (fun q hq => by cases hq; decide)⟩

/-- Counterexample to C2 as stated: a non-required `password2` field with
the empty value passes validation even though its value differs from the
current `password1` value — the confirmation check only runs for truthy
values. -/
theorem password2_empty_counterexample :
    validateField ⟨"password2", "password", "", false⟩ (some "abc12345") = none
    ∧ ("" : String) ≠ "abc12345" := by decide

/-- Helper: the regex class `[1-9]` is `[0-9]` minus `'0'`. -/
lemma isDigit19_iff (c : Char) : isDigit19 c = true ↔ isDigit09 c = true ∧ c ≠ '0' := by
  constructor
  · intro h
    simp only [isDigit19, Bool.and_eq_true, decide_eq_true_eq] at h
    obtain ⟨h1, h9⟩ := h
    have h1' : (49 : Nat) ≤ c.val.toNat := h1
    constructor
    · simp only [isDigit09, Bool.and_eq_true, decide_eq_true_eq]
      refine ⟨?_, h9⟩
      show (48 : Nat) ≤ c.val.toNat
      omega
    · intro hc
      subst hc
      exact absurd h1 (by decide)
  · rintro ⟨h, hne⟩
    simp only [isDigit09, Bool.and_eq_true, decide_eq_true_eq] at h
    obtain ⟨h0, h9⟩ := h
    have hval : c.val.toNat ≠ 48 := fun hc => hne (Char.ext (UInt32.ext hc))
    have h0' : (48 : Nat) ≤ c.val.toNat := h0
    simp only [isDigit19, Bool.and_eq_true, decide_eq_true_eq]
    refine ⟨?_, h9⟩
    show (49 : Nat) ≤ c.val.toNat
    omega

/-- Helper: characterisation of the `[1-9][\d]{0,15}$` matcher as a run of
at most 16 digits whose first digit is non-zero. -/
lemma phoneDigitsOk_iff (ds : List Char) :
    phoneDigitsOk ds = true ↔
      ds ≠ [] ∧ (∀ c ∈ ds, isDigit09 c = true) ∧ ds.head? ≠ some '0'
        ∧ ds.length ≤ 16 := by
  cases ds with
  | nil => simp [phoneDigitsOk]
  | cons c rest =>
    simp only [phoneDigitsOk, Bool.and_eq_true, List.all_eq_true, decide_eq_true_eq,
      List.head?_cons, List.length_cons, ne_eq, Option.some.injEq,
      reduceCtorEq, not_false_eq_true, true_and]
    constructor
    · rintro ⟨⟨h19, hlen⟩, hall⟩
      obtain ⟨h09, hne⟩ := (isDigit19_iff c).1 h19
      refine ⟨?_, hne, by omega⟩
      intro x hx
      rcases List.mem_cons.1 hx with h | h
      · subst h
        exact h09
      · exact hall x h
    · rintro ⟨hall, hhead, hlen⟩
      refine ⟨⟨?_, by omega⟩, ?_⟩
      · exact (isDigit19_iff c).2 ⟨hall c (List.mem_cons_self c rest), hhead⟩
      · intro x hx
        exact hall x (List.mem_cons_of_mem c hx)

/-- Helper: the phone matcher agrees with the spec-level description of
the phone pattern. -/
lemma phone_bridge (cs : List Char) :
    phoneDigitsOk (dropPlus cs) = true ↔ phoneSpecMatch cs := by
  cases cs with
  | nil =>
    constructor
    · intro h
      exact absurd h (by decide)
    · rintro ⟨ds, hcs | hcs, hne, -, -, -⟩
      · exact absurd hcs.symm hne
      · exact absurd hcs (by simp)
  | cons c rest =>
    by_cases hc : c = '+'
    · subst hc
      rw [show dropPlus ('+' :: rest) = rest from by simp [dropPlus]]
      rw [phoneDigitsOk_iff]
      constructor
      · intro h
        exact ⟨rest, Or.inr rfl, h.1, h.2.1, h.2.2.1, h.2.2.2⟩
      · rintro ⟨ds, hcs | hcs, hne, hall, hhead, hlen⟩
        · exact absurd (hall '+' (by rw [← hcs]; exact List.mem_cons_self _ _)) (by decide)
        · injection hcs with h1 h2
          subst h2
          exact ⟨hne, hall, hhead, hlen⟩
    · rw [show dropPlus (c :: rest) = c :: rest from by simp [dropPlus, hc]]
      rw [phoneDigitsOk_iff]
      constructor
      · intro h
        exact ⟨c :: rest, Or.inl rfl, h.1, h.2.1, h.2.2.1, h.2.2.2⟩
      · rintro ⟨ds, hcs | hcs, hne, hall, hhead, hlen⟩
        · rw [hcs]
          exact ⟨hne, hall, hhead, hlen⟩
        · injection hcs with h1 _
          exact absurd h1 hc

/-- Helper: removing all whitespace after trimming removes exactly the
same characters as removing all whitespace directly. -/
lemma filter_dropWhile_jsWs (l : List Char) :
    (l.dropWhile jsWs).filter (fun c => !jsWs c) = l.filter (fun c => !jsWs c) := by
  induction l with
  | nil => rfl
  | cons c l ih =>
    rw [List.dropWhile_cons]
    by_cases h : jsWs c = true
    · rw [if_pos h]
      simp [List.filter_cons, h, ih]
    · rw [if_neg h]

/-- Helper: `stripWs` is unaffected by a prior `jsTrim`. -/
lemma stripWs_jsTrim (s : String) : stripWs (jsTrim s) = stripWs s := by
  unfold stripWs jsTrim
  refine congrArg String.mk ?_
  show ((((s.data.dropWhile jsWs).reverse.dropWhile jsWs).reverse).filter fun c => !jsWs c)
    = s.data.filter fun c => !jsWs c
  rw [List.filter_reverse, filter_dropWhile_jsWs, List.filter_reverse,
    filter_dropWhile_jsWs, List.reverse_reverse]

/-- Helper: `isValidPhone` on the trimmed value agrees with the spec-level
phone pattern on the whitespace-stripped raw value. -/
lemma isValidPhone_jsTrim_iff (v : String) :
    isValidPhone (jsTrim v) = true ↔ phoneSpecMatch (stripWs v).data := by
  unfold isValidPhone
  rw [stripWs_jsTrim]
  exact phone_bridge _

/-- Claim C5 (amended): for a `tel` field not named `password2` whose
trimmed value is non-empty, validation accepts exactly when the
whitespace-stripped value is an optional `+` followed by at most 16
digits, the first non-zero; the only possible failure is the phone-format
message. -/
theorem tel_validation (f : FormField) (p1 : Option String)
    (htype : f.type = "tel") (hname : f.name ≠ "password2")
    (hv : jsTrim f.value ≠ "") :
    (validateField f p1 = none ↔ phoneSpecMatch (stripWs f.value).data)
    ∧ (validateField f p1 = none
        ∨ validateField f p1 = some "Please enter a valid phone number") := by
  rw [validateField_nonempty f p1 hv]
  have hT : typeRuleError f (jsTrim f.value)
      = if isValidPhone (jsTrim f.value) = true then none
        else some "Please enter a valid phone number" := by
    unfold typeRuleError
    rw [htype]
    cases hph : isValidPhone (jsTrim f.value) <;> simp [hph]
  rw [hT]
  have hn : (f.name == "password2") = false := beq_eq_false_iff_ne.2 hname
  cases hph : isValidPhone (jsTrim f.value) with
  | false =>
    rw [if_neg (by simp [hph])]
    constructor
    · constructor
      · intro h
        exact absurd h (by simp)
      · intro hspec
        exact absurd ((isValidPhone_jsTrim_iff f.value).2 hspec) (by simp [hph])
    · exact Or.inr rfl
  | true =>
    rw [if_pos rfl]
    simp only [hn, Bool.false_eq_true, if_false]
    constructor
    · constructor
      · intro _
        exact (isValidPhone_jsTrim_iff f.value).1 hph
      · intro _
        trivial
    · exact Or.inl trivial

/-- Witness for C5 (amended): a spaced Nigerian number passes; a number
with a leading zero fails with the phone-format message. -/
theorem tel_validation_witness :
    validateField ⟨"phone", "tel", "+234 801 234 5678", false⟩ none = none
    ∧ validateField ⟨"phone", "tel", "0801", false⟩ none
      = some "Please enter a valid phone number" :=
  ⟨(tel_validation ⟨"phone", "tel", "+234 801 234 5678", false⟩ none rfl
      (by decide) (by decide)).1.mpr
      ⟨['2', '3', '4', '8', '0', '1', '2', '3', '4', '5', '6', '7', '8'], by decide⟩,
   (tel_validation ⟨"phone", "tel", "0801", false⟩ none rfl
      (by decide) (by decide)).2.resolve_left
      (fun h0 =>
        absurd ((tel_validation ⟨"phone", "tel", "0801", false⟩ none rfl
          (by decide) (by decide)).1.mp h0)
          (fun hs => absurd ((phone_bridge _).mpr hs) (by decide)))⟩

/-- Counterexample to C5 as stated: a `tel` field named `password2` whose
value matches the phone pattern is nevertheless rejected (by the
password-confirmation rule), so "accepts iff the pattern matches" fails
over all `tel` fields. -/
theorem tel_password2_counterexample :
    validateField ⟨"password2", "tel", "+1234", false⟩ (some "x")
      = some "Passwords do not match"
    ∧ phoneSpecMatch (stripWs "+1234").data :=
  ⟨by decide, ⟨['1', '2', '3', '4'], by decide⟩⟩

/-- Helper: `takeWhile`/`dropWhile` on a list split at its first failing
element. -/
lemma takeWhile_middle (p : Char → Bool) (a rest : List Char) (y : Char)
    (ha : ∀ x ∈ a, p x = true) (hy : p y = false) :
    (a ++ y :: rest).takeWhile p = a ∧ (a ++ y :: rest).dropWhile p = y :: rest := by
  induction a with
  | nil =>
    constructor
    · simp [List.takeWhile_cons, hy]
    · simp [List.dropWhile_cons, hy]
  | cons x a ih =>
    have hx : p x = true := ha x (List.mem_cons_self _ _)
    have ih' := ih fun z hz => ha z (List.mem_cons_of_mem _ hz)
    constructor
    · simp [List.takeWhile_cons, hx, ih'.1]
    · simp [List.dropWhile_cons, hx, ih'.2]

/-- Helper: the email matcher evaluated on an explicit split at the first
`@`. -/
lemma emailMatchList_split (a d : List Char) (ha : ∀ x ∈ a, (x != '@') = true) :
    emailMatchList (a ++ '@' :: d) =
      (!a.isEmpty && a.all (fun c => !jsWs c) &&
       d.all (fun c => !jsWs c && c != '@') &&
       ((d.drop 1).dropLast.contains '.')) := by
  obtain ⟨ht, hd⟩ := takeWhile_middle (fun c => c != '@') a d '@' ha (by decide)
  unfold emailMatchList
  rw [hd]
  show (!((a ++ '@' :: d).takeWhile (fun c => c != '@')).isEmpty &&
      ((a ++ '@' :: d).takeWhile (fun c => c != '@')).all (fun c => !jsWs c) &&
      d.all (fun c => !jsWs c && c != '@') &&
      ((d.drop 1).dropLast.contains '.')) = _
  rw [ht]

/-- Helper: a string accepted by the email matcher decomposes as the
spec-level `local@domain.tld` pattern. -/
lemma emailMatchList_sound (cs : List Char) (h : emailMatchList cs = true) :
    emailSpecMatch cs := by
  cases hr : cs.dropWhile (fun c => c != '@') with
  | nil =>
    unfold emailMatchList at h
    rw [hr] at h
    exact absurd h (by simp)
  | cons y d =>
    have hy : y = '@' := by
      have hh := List.head?_dropWhile_not (fun c => c != '@') cs
      rw [hr] at hh
      simpa using hh
    subst hy
    have hsplit : cs = cs.takeWhile (fun c => c != '@') ++ '@' :: d := by
      conv_lhs => rw [← List.takeWhile_append_dropWhile (fun c => c != '@') cs]
      rw [hr]
    unfold emailMatchList at h
    rw [hr] at h
    have h' : (!(cs.takeWhile (fun c => c != '@')).isEmpty &&
        (cs.takeWhile (fun c => c != '@')).all (fun c => !jsWs c) &&
        d.all (fun c => !jsWs c && c != '@') &&
        ((d.drop 1).dropLast.contains '.')) = true := h
    simp only [Bool.and_eq_true, Bool.not_eq_true', List.all_eq_true, bne_iff_ne] at h'
    obtain ⟨⟨⟨hne, hws⟩, hdall⟩, hdot⟩ := h'
    have hnea : cs.takeWhile (fun c => c != '@') ≠ [] := List.isEmpty_eq_false.1 hne
    have hmem : '.' ∈ (d.drop 1).dropLast := List.elem_iff.1 hdot
    cases d with
    | nil => simp at hmem
    | cons x d' =>
      simp only [List.drop_succ_cons, List.drop_zero] at hmem
      rcases List.eq_nil_or_concat d' with hnil | ⟨e, z, hez⟩
      · subst hnil
        simp at hmem
      · rw [List.concat_eq_append] at hez
        subst hez
        rw [List.dropLast_concat] at hmem
        obtain ⟨s, t, hst⟩ := List.mem_iff_append.1 hmem
        subst hst
        refine ⟨cs.takeWhile (fun c => c != '@'), x :: s, t ++ [z],
          hnea, by simp, by simp, ?_, ?_, ?_, ?_⟩
        · intro u hu
          exact ⟨hws u hu,
            bne_iff_ne.1 (@List.mem_takeWhile_imp _ (fun c => c != '@') cs u hu)⟩
        · intro u hu
          refine hdall u ?_
          rcases List.mem_cons.1 hu with h | h
          · exact h ▸ List.mem_cons_self _ _
          · exact List.mem_cons_of_mem _
              (List.mem_append_left _ (List.mem_append_left _ h))
        · intro u hu
          refine hdall u ?_
          rcases List.mem_append.1 hu with h | h
          · exact List.mem_cons_of_mem _
              (List.mem_append_left _ (List.mem_append_right _ (List.mem_cons_of_mem _ h)))
          · exact List.mem_cons_of_mem _ (List.mem_append_right _ h)
        · conv_lhs => rw [hsplit]
          simp only [List.append_assoc, List.cons_append]

/-- Helper: a string of the spec-level `local@domain.tld` shape is
accepted by the email matcher. -/
lemma emailMatchList_complete (cs : List Char) (h : emailSpecMatch cs) :
    emailMatchList cs = true := by
  obtain ⟨a, b, c, hna, hnb, hnc, haP, hbP, hcP, hcs⟩ := h
  subst hcs
  have ha' : ∀ x ∈ a, (x != '@') = true := fun x hx => bne_iff_ne.2 (haP x hx).2
  rw [emailMatchList_split a (b ++ '.' :: c) ha']
  simp only [Bool.and_eq_true, Bool.not_eq_true', List.all_eq_true, bne_iff_ne,
    List.isEmpty_eq_false]
  refine ⟨⟨⟨hna, ?_⟩, ?_⟩, ?_⟩
  · intro x hx
    exact (haP x hx).1
  · intro x hx
    rcases List.mem_append.1 hx with hxb | hxt
    · exact ⟨(hbP x hxb).1, (hbP x hxb).2⟩
    · rcases List.mem_cons.1 hxt with hdot | hxc
      · subst hdot
        exact ⟨by decide, by decide⟩
      · exact ⟨(hcP x hxc).1, (hcP x hxc).2⟩
  · obtain ⟨x0, b', rfl⟩ : ∃ x0 b', b = x0 :: b' := by
      cases b with
      | nil => exact absurd rfl hnb
      | cons u v => exact ⟨u, v, rfl⟩
    rcases List.eq_nil_or_concat c with hnil | ⟨c', z, rfl⟩
    · exact absurd hnil hnc
    · rw [List.concat_eq_append]
      have hshape : ((x0 :: b') ++ '.' :: (c' ++ [z])).drop 1
          = (b' ++ '.' :: c') ++ [z] := by
        simp [List.cons_append, List.append_assoc]
      rw [hshape, List.dropLast_concat]
      exact List.elem_iff.2 (List.mem_append_right _ (List.mem_cons_self _ _))

/-- Helper: the email matcher agrees with the spec-level description of
the email pattern. -/
lemma emailMatchList_iff (cs : List Char) :
    emailMatchList cs = true ↔ emailSpecMatch cs :=
  ⟨emailMatchList_sound cs, emailMatchList_complete cs⟩

/-- Claim C6 (amended): for an `email` field not named `password2` whose
trimmed value is non-empty, validation accepts exactly when the trimmed
value splits as the simple `local@domain.tld` pattern; the only possible
failure is the email-format message.  In particular `a@b.co` is accepted
and `not-an-email` is rejected with that message (see the witness). -/
theorem email_validation (f : FormField) (p1 : Option String)
    (htype : f.type = "email") (hname : f.name ≠ "password2")
    (hv : jsTrim f.value ≠ "") :
    (validateField f p1 = none ↔ emailSpecMatch (jsTrim f.value).data)
    ∧ (validateField f p1 = none
        ∨ validateField f p1 = some "Please enter a valid email address") := by
  rw [validateField_nonempty f p1 hv]
  have hT : typeRuleError f (jsTrim f.value)
      = if isValidEmail (jsTrim f.value) = true then none
        else some "Please enter a valid email address" := by
    unfold typeRuleError
    rw [htype]
    cases hph : isValidEmail (jsTrim f.value) <;> simp [hph]
  rw [hT]
  have hn : (f.name == "password2") = false := beq_eq_false_iff_ne.2 hname
  cases hph : isValidEmail (jsTrim f.value) with
  | false =>
    rw [if_neg (by simp [hph])]
    constructor
    · constructor
      · intro h
        exact absurd h (by simp)
      · intro hspec
        have : isValidEmail (jsTrim f.value) = true :=
          emailMatchList_complete _ hspec
        exact absurd this (by simp [hph])
    · exact Or.inr rfl
  | true =>
    rw [if_pos rfl]
    simp only [hn, Bool.false_eq_true, if_false]
    constructor
    · constructor
      · intro _
        exact emailMatchList_sound _ hph
      · intro _
        trivial
    · exact Or.inl trivial

/-- Witness for C6 (amended): `a@b.co` passes validation; `not-an-email`
fails with the email-format message. -/
theorem email_validation_witness :
    validateField ⟨"e", "email", "a@b.co", false⟩ none = none
    ∧ validateField ⟨"e", "email", "not-an-email", false⟩ none
      = some "Please enter a valid email address" :=
  ⟨(email_validation ⟨"e", "email", "a@b.co", false⟩ none rfl
      (by decide) (by decide)).1.mpr
      ⟨['a'], ['b'], ['c', 'o'], by decide⟩,
   (email_validation ⟨"e", "email", "not-an-email", false⟩ none rfl
      (by decide) (by decide)).2.resolve_left
      (fun h0 =>
        absurd ((email_validation ⟨"e", "email", "not-an-email", false⟩ none rfl
          (by decide) (by decide)).1.mp h0)
          (fun hs => absurd (emailMatchList_complete _ hs) (by decide)))⟩

/-- Counterexample to C6 as stated: an `email` field named `password2`
whose value matches the email pattern is nevertheless rejected (by the
password-confirmation rule), so "accepts exactly when the pattern matches"
fails over all `email` fields. -/
theorem email_password2_counterexample :
    validateField ⟨"password2", "email", "a@b.co", false⟩ (some "x")
      = some "Passwords do not match"
    ∧ emailSpecMatch (jsTrim "a@b.co").data :=
  ⟨by decide, ⟨['a'], ['b'], ['c', 'o'], by decide⟩⟩

